import Mathlib

/-!
Verification of the resource-mapper / GVK-resolution core of the mcp-k8s
repository, as a shallow embedding in Lean 4.

Modelling conventions used throughout this file:
* Go strings are Lean `String`s; the ASCII fragments of `strings.ToUpper` /
  `strings.ToLower` are modelled per character (all kind strings handled by
  the program are ASCII).
* The Go map `map[schema.GroupVersionKind]ResourceMapper` is modelled as an
  association list in which insertion overwrites the entry with an equal key
  (exactly the observable semantics of a Go map with value keys).
* Kubernetes unstructured objects (`map[string]interface{}` trees decoded
  from JSON) are modelled by the inductive type `KVal`; the
  `unstructured.NestedString/NestedInt64/NestedBool/NestedMap/NestedSlice`
  helpers return `Option` values: `some` exactly when the Go helper returns
  `found = true` (present and of the expected type), `none` when the field
  is absent or of a mismatched type (the call sites discard the error value).
* A Go panic (from a failed single-form type assertion `v.(string)`) is
  modelled by `Option.none` in a mapper that returns `Option`.
* `float64` quantities parsed from decimal literals are modelled by exact
  arithmetic (the decimal values and unit conversions appearing in the
  claims are exactly representable in `float64`, so the models agree there);
  Go's `int64(...)` conversion of a nonnegative float is truncation, i.e.
  `Nat` division after scaling.
-/

namespace McpK8s

/-! ## ASCII case folding (Go `strings.ToUpper` / `strings.ToLower`, ASCII fragment) -/

/-- ASCII lower-casing of one character, as Go `strings.ToLower` acts on ASCII. -/
def lowerChar (c : Char) : Char :=
  if 65 ≤ c.toNat ∧ c.toNat ≤ 90 then Char.ofNat (c.toNat + 32) else c

/-- ASCII upper-casing of one character, as Go `strings.ToUpper` acts on ASCII. -/
def upperChar (c : Char) : Char :=
  if 97 ≤ c.toNat ∧ c.toNat ≤ 122 then Char.ofNat (c.toNat - 32) else c

/-- Character-list form of the kind normalization: first character
upper-cased, all remaining characters lower-cased. -/
def normalizeKindChars : List Char → List Char
  | [] => []
  | c :: cs => upperChar c :: cs.map lowerChar

/-- Kind normalization from `normalizeGVKForLookup` (mapper.go):
`strings.ToUpper(kind[:1]) + strings.ToLower(kind[1:])` — first character
upper-cased, all remaining characters lower-cased. -/
def normalizeKind (k : String) : String :=
  String.mk (normalizeKindChars k.data)

/-- Two strings are casing variants of each other: they agree after
lower-casing every character. -/
def sameUpToCase (s t : String) : Prop :=
  s.data.map lowerChar = t.data.map lowerChar

instance (s t : String) : Decidable (sameUpToCase s t) := by
  unfold sameUpToCase; infer_instance

/-! ## GroupVersionKind and the mapper registry (mapper.go) -/

/-- Embeds `schema.GroupVersionKind`. -/
structure GroupVersionKind where
  group : String
  version : String
  kind : String
  deriving DecidableEq, Repr

/-- Embeds `normalizeGVKForLookup` (mapper.go lines 55-61): normalizes the Kind
component (first character upper-cased, rest lower-cased) when it is
nonempty; Group and Version are untouched. -/
def normalizeGVKForLookup (gvk : GroupVersionKind) : GroupVersionKind :=
  if gvk.kind = "" then gvk else { gvk with kind := normalizeKind gvk.kind }

/-- The registry map `map[schema.GroupVersionKind]ResourceMapper`, modelled
as an association list whose keys are unique (insertion overwrites). -/
abbrev Registry (M : Type) : Type := List (GroupVersionKind × M)

/-- Lookup in the association-list model of a Go map. -/
def mapFind {M : Type} : List (GroupVersionKind × M) → GroupVersionKind → Option M
  | [], _ => none
  | (k, v) :: rest, key => if key = k then some v else mapFind rest key

/-- Insertion in the association-list model of a Go map: assignment
`m[key] = v` overwrites an existing entry with an equal key. -/
def mapInsert {M : Type} : List (GroupVersionKind × M) → GroupVersionKind → M → List (GroupVersionKind × M)
  | [], key, v => [(key, v)]
  | (k, w) :: rest, key, v =>
    if key = k then (k, v) :: rest else (k, w) :: mapInsert rest key v

/-- The registry starts empty (`make(map[...])`). -/
def emptyRegistry {M : Type} : Registry M := []

/-- Embeds `Register` (mapper.go lines 21-25): normalizes the GVK, then inserts or
overwrites the entry. -/
def Register {M : Type} (gvk : GroupVersionKind) (mapper : M) (reg : Registry M) : Registry M :=
  mapInsert reg (normalizeGVKForLookup gvk) mapper

/-- Embeds `Get` (mapper.go lines 28-35): normalizes the GVK and looks it up;
`some` plays the role of `found = true`. -/
def Get {M : Type} (gvk : GroupVersionKind) (reg : Registry M) : Option M :=
  mapFind reg (normalizeGVKForLookup gvk)

/-! ## Unstructured objects (parsed JSON trees) and the nested-field helpers -/

/-- A value of a Kubernetes unstructured object: the `interface{}` universe
produced by JSON decoding (`map[string]interface{}` trees). Integers are the
`int64` values stored by the unstructured converter. -/
inductive KVal where
  | str (s : String)
  | int (n : Int)
  | bool (b : Bool)
  | null
  | arr (items : List KVal)
  | obj (fields : List (String × KVal))

/-- An `unstructured.Unstructured` resource: its top-level `.Object` map. -/
def Unstructured : Type := List (String × KVal)

/-- Index into a Go `map[string]interface{}` (keys are unique in a decoded
JSON object; the first binding is the authoritative one). -/
def objGet : List (String × KVal) → String → Option KVal
  | [], _ => none
  | (k, v) :: rest, key => if key = k then some v else objGet rest key

/-- Embeds `unstructured.NestedFieldNoCopy`: walk a path of keys through nested
maps; `none` when a key is missing or an intermediate value is not a map. -/
def nestedField : KVal → List String → Option KVal
  | v, [] => some v
  | KVal.obj fields, key :: rest =>
    match objGet fields key with
    | some v => nestedField v rest
    | none => none
  | _, _ :: _ => none

/-- Embeds `unstructured.NestedString` with the error discarded: `some` exactly when
the path resolves to a string (`found = true`); absence or a type mismatch is
`none`. -/
def nestedString (fields : List (String × KVal)) (path : List String) : Option String :=
  match nestedField (KVal.obj fields) path with
  | some (KVal.str s) => some s
  | _ => none

/-- Embeds `unstructured.NestedInt64` with the error discarded. -/
def nestedInt64 (fields : List (String × KVal)) (path : List String) : Option Int :=
  match nestedField (KVal.obj fields) path with
  | some (KVal.int n) => some n
  | _ => none

/-- Embeds `unstructured.NestedBool` with the error discarded. -/
def nestedBool (fields : List (String × KVal)) (path : List String) : Option Bool :=
  match nestedField (KVal.obj fields) path with
  | some (KVal.bool b) => some b
  | _ => none

/-- Embeds `unstructured.NestedMap` with the error discarded (the deep copy the Go
helper performs is identity in this value model). -/
def nestedMap (fields : List (String × KVal)) (path : List String) : Option (List (String × KVal)) :=
  match nestedField (KVal.obj fields) path with
  | some (KVal.obj m) => some m
  | _ => none

/-- Embeds `unstructured.NestedSlice` with the error discarded. -/
def nestedSlice (fields : List (String × KVal)) (path : List String) : Option (List KVal) :=
  match nestedField (KVal.obj fields) path with
  | some (KVal.arr xs) => some xs
  | _ => none

/-- Embeds `item.GetName()`: `metadata.name`, empty string when absent. -/
def getName (item : Unstructured) : String :=
  (nestedString item ["metadata", "name"]).getD ""

/-- Embeds `item.GetNamespace()`: `metadata.namespace`, empty string when absent. -/
def getNamespace (item : Unstructured) : String :=
  (nestedString item ["metadata", "namespace"]).getD ""

/-! ## Generic fallback mapper (generic.go) and content dispatcher (content.go) -/

/-- Embeds `GenericK8sResourceContent`: `{name, namespace}` (the field `namespace`
is spelled `nspace` because `namespace` is a Lean keyword). JSON tags:
`name` always serialized, `namespace` carries `omitempty`. -/
structure GenericK8sResourceContent where
  name : String
  nspace : String

/-- Embeds `MapGenericK8sResource` (generic.go lines 14-19). -/
def MapGenericK8sResource (item : Unstructured) : GenericK8sResourceContent :=
  { name := getName item, nspace := getNamespace item }

/-- JSON serialization of the generic content honoring the struct tags:
`name` always present, `namespace` omitted when empty (`omitempty`). -/
def genericContentJSON (c : GenericK8sResourceContent) : KVal :=
  KVal.obj (("name", KVal.str c.name) ::
    (if c.nspace = "" then [] else [("namespace", KVal.str c.nspace)]))

/-- Embeds `mapToK8sResourceListContent` (content.go lines 12-28): the mapper is
looked up once for the whole list; each item is mapped by it, or by the
generic fallback when the lookup misses. Mapper results are modelled at
their JSON value (`KVal`), matching the `any` return immediately
serialized by the caller. -/
def mapToK8sResourceListContent (reg : Registry (Unstructured → KVal))
    (items : List Unstructured) (gvk : GroupVersionKind) : List KVal :=
  match Get gvk reg with
  | some m => items.map m
  | none => items.map (fun item => genericContentJSON (MapGenericK8sResource item))

/-- Embeds `mapToK8sResourceContent` (content.go lines 30-41). -/
def mapToK8sResourceContent (reg : Registry (Unstructured → KVal))
    (resource : Unstructured) (gvk : GroupVersionKind) : KVal :=
  match Get gvk reg with
  | some m => m resource
  | none => genericContentJSON (MapGenericK8sResource resource)

/-! ## Memory quantity parser and Pod mapper (pod.go) -/

/-- Whitespace class of Go's regexp `\s`. -/
def isSpaceChar (c : Char) : Bool :=
  c = ' ' || c = '\t' || c = '\n' || c = '\x0c' || c = '\r'

/-- Embeds `strings.TrimSpace` on the character list (ASCII whitespace; the inputs
of interest contain no non-ASCII whitespace). -/
def trimSpaceChars (cs : List Char) : List Char :=
  ((cs.dropWhile isSpaceChar).reverse.dropWhile isSpaceChar).reverse

/-- Decimal digits to a natural number. -/
def digitsToNat (ds : List Char) : Nat :=
  ds.foldl (fun a c => a * 10 + (c.toNat - 48)) 0

/-- Tail of the regex `^(\d+(?:\.\d+)?)\s*([A-Za-z]*)$` after the captured
number: optional whitespace, then the alphabetic suffix capture, then end of
input. Returns `(numerator, fraction-digit-count, suffix)`. -/
def matchTail (n : Nat) (k : Nat) (rest : List Char) : Option (Nat × Nat × String) :=
  let rest2 := rest.dropWhile isSpaceChar
  let letters := rest2.takeWhile Char.isAlpha
  let rest3 := rest2.dropWhile Char.isAlpha
  if rest3.isEmpty then some (n, k, String.mk letters) else none

/-- The regex `^(\d+(?:\.\d+)?)\s*([A-Za-z]*)$` of `parseMemoryToMiB`:
`some (n, k, suffix)` when the input matches, where the captured number has
value `n / 10^k` (an exact decimal); `none` when it does not match. -/
def matchMemory (cs : List Char) : Option (Nat × Nat × String) :=
  let ds := cs.takeWhile Char.isDigit
  let rest := cs.dropWhile Char.isDigit
  if ds.isEmpty then none
  else
    match rest with
    | '.' :: rest2 =>
      let fs := rest2.takeWhile Char.isDigit
      let rest3 := rest2.dropWhile Char.isDigit
      if fs.isEmpty then none
      else matchTail (digitsToNat ds * 10 ^ fs.length + digitsToNat fs) fs.length rest3
    | _ => matchTail (digitsToNat ds) 0 rest

/-- The `units` conversion table of `parseMemoryToMiB` (pod.go lines 35-45). -/
def memoryUnits : String → Option Nat
  | "" => some (1024 * 1024)
  | "k" => some 1024
  | "Ki" => some 1024
  | "M" => some 1
  | "Mi" => some 1
  | "G" => some 1024
  | "Gi" => some 1024
  | "T" => some (1024 * 1024)
  | "Ti" => some (1024 * 1024)
  | _ => none

/-- Embeds `parseMemoryToMiB` (pod.go lines 29-74). The captured decimal is
nonnegative (the regex admits no sign), so the `float64` arithmetic of the
source is modelled exactly: dividing by the multiplier for byte-scale units,
multiplying for the larger units, and `int64(...)` truncation toward zero is
`Nat` division on the exact scaled value. -/
def parseMemoryToMiB (memoryStr : String) : Nat :=
  if memoryStr = "" then 0
  else
    match matchMemory (trimSpaceChars memoryStr.data) with
    | none => 0
    | some (n, k, unit) =>
      match memoryUnits unit with
      | none => 0
      | some mult =>
        if unit = "" || unit = "k" || unit = "Ki" then n / (10 ^ k * mult)
        else n * mult / 10 ^ k

/-- Embeds `PodListContent` (pod.go lines 14-25); `namespace` is spelled `nspace`.
The `Age` field is never assigned by the mapper (a TODO in the source) and
is omitted here. -/
structure PodListContent where
  name : String
  nspace : String
  status : String
  ready : String
  restarts : Int
  memoryRequestMiB : Nat
  memoryLimitMiB : Nat
  oomKills : Nat
  lastTerminationReason : String

/-- Accumulator of the `containerStatuses` loop in `mapPodResource`. -/
structure PodStatusAcc where
  ready : Nat
  restarts : Int
  oomKills : Nat
  lastTerminationReason : String

/-- One iteration of the `containerStatuses` loop (pod.go lines 124-156):
non-map entries are skipped; `ready`, `restartCount`, the
`lastState.terminated.reason` and `state.terminated.reason` checks each
contribute independently. -/
def podStatusStep (acc : PodStatusAcc) (c : KVal) : PodStatusAcc :=
  match c with
  | KVal.obj cm =>
    let acc1 := match nestedBool cm ["ready"] with
      | some true => { acc with ready := acc.ready + 1 }
      | _ => acc
    let acc2 := match nestedInt64 cm ["restartCount"] with
      | some rc => { acc1 with restarts := acc1.restarts + rc }
      | none => acc1
    let acc3 := match nestedString cm ["lastState", "terminated", "reason"] with
      | some reason =>
        let acc3a := { acc2 with lastTerminationReason := reason }
        if reason = "OOMKilled" then { acc3a with oomKills := acc3a.oomKills + 1 } else acc3a
      | none => acc2
    match nestedString cm ["state", "terminated", "reason"] with
    | some reason =>
      if reason = "OOMKilled" then { acc3 with oomKills := acc3.oomKills + 1 } else acc3
    | none => acc3
  | _ => acc

/-- One iteration of the `spec.containers` memory loop (pod.go lines
99-110): the pair accumulates `(totalMemoryRequest, totalMemoryLimit)`. -/
def podMemoryStep (t : Nat × Nat) (c : KVal) : Nat × Nat :=
  match c with
  | KVal.obj cm =>
    let t1 := match nestedString cm ["resources", "requests", "memory"] with
      | some m => (t.1 + parseMemoryToMiB m, t.2)
      | none => t
    match nestedString cm ["resources", "limits", "memory"] with
    | some m => (t1.1, t1.2 + parseMemoryToMiB m)
    | none => t1
  | _ => t

/-- Embeds `mapPodResource` (pod.go lines 84-167). -/
def mapPodResource (item : Unstructured) : PodListContent :=
  let base : PodListContent :=
    { name := getName item, nspace := getNamespace item, status := "", ready := "",
      restarts := 0, memoryRequestMiB := 0, memoryLimitMiB := 0, oomKills := 0,
      lastTerminationReason := "" }
  let p1 := match nestedString item ["status", "phase"] with
    | some s => { base with status := s }
    | none => base
  let p2 := match nestedSlice item ["spec", "containers"] with
    | some cs =>
      let totals := cs.foldl podMemoryStep (0, 0)
      { p1 with memoryRequestMiB := totals.1, memoryLimitMiB := totals.2 }
    | none => p1
  match nestedSlice item ["status", "containerStatuses"] with
  | some cs =>
    let acc := cs.foldl podStatusStep ⟨0, 0, 0, ""⟩
    { p2 with
        ready := toString acc.ready ++ "/" ++ toString cs.length,
        restarts := acc.restarts,
        oomKills := acc.oomKills,
        lastTerminationReason := acc.lastTerminationReason }
  | none => p2

/-- Per-container OOM count in the words of the claim: one occurrence for a
`lastState.terminated.reason` equal to `"OOMKilled"` and one for a
`state.terminated.reason` equal to `"OOMKilled"`. -/
def specOOMCount (c : KVal) : Nat :=
  match c with
  | KVal.obj cm =>
    (if nestedString cm ["lastState", "terminated", "reason"] = some "OOMKilled" then 1 else 0) +
    (if nestedString cm ["state", "terminated", "reason"] = some "OOMKilled" then 1 else 0)
  | _ => 0

/-- A Pod whose single container shows `"OOMKilled"` simultaneously in
`lastState.terminated.reason` and `state.terminated.reason`. -/
def doubleOOMPod : Unstructured :=
  [("metadata", KVal.obj [("name", KVal.str "oom-pod"), ("namespace", KVal.str "default")]),
   ("status", KVal.obj
     [("containerStatuses", KVal.arr
       [KVal.obj
         [("lastState", KVal.obj [("terminated", KVal.obj [("reason", KVal.str "OOMKilled")])]),
          ("state", KVal.obj [("terminated", KVal.obj [("reason", KVal.str "OOMKilled")])])]])])]

/-! ## Event mapper (event.go) -/

/-- Embeds `EventListContent` (event.go lines 12-25); `Type` is spelled `typ` and
`Namespace` is `nspace` (Lean keywords). -/
structure EventListContent where
  name : String
  nspace : String
  typ : String
  reason : String
  message : String
  involvedObject : String
  source : String
  count : Int
  firstTimestamp : String
  lastTimestamp : String
  eventTime : String
  age : String

/-- A Go single-form type assertion `v.(string)`: `none` is the panic. -/
def assertString : KVal → Option String
  | KVal.str s => some s
  | _ => none

/-- The `involvedObject` block of `mapEventResource` (event.go lines 64-78).
The source uses the unchecked assertions `kind.(string)` and
`name.(string)`: a present non-string value is a run-time panic, modelled
as `none`. -/
def involvedObjectInfo (fields : List (String × KVal)) : Option String := do
  let info1 ← match objGet fields "kind" with
    | some v => assertString v
    | none => pure ""
  match objGet fields "name" with
  | some v => do
    let n ← assertString v
    if info1 ≠ "" then pure (info1 ++ "/" ++ n) else pure n
  | none => pure info1

/-- The `source` block of `mapEventResource` (event.go lines 81-94), with
the same unchecked `component.(string)` / `host.(string)` assertions. -/
def sourceInfo (fields : List (String × KVal)) : Option String := do
  let info1 ← match objGet fields "component" with
    | some v => assertString v
    | none => pure ""
  match objGet fields "host" with
  | some v => do
    let h ← assertString v
    if info1 ≠ "" then pure (info1 ++ "@" ++ h) else pure h
  | none => pure info1

/-- Embeds `mapEventResource` (event.go lines 40-133). The run-time clock is
abstracted by `ageOf`, which models `time.Parse` followed by
`formatDuration(time.Since ...)`: `some age` when the RFC3339 timestamp
parses to a nonzero time, `none` otherwise. A `none` result of the whole
function is a Go panic from one of the unchecked type assertions. -/
def mapEventResource (ageOf : String → Option String) (item : Unstructured) : Option EventListContent := do
  let e0 : EventListContent :=
    { name := getName item, nspace := getNamespace item, typ := "", reason := "",
      message := "", involvedObject := "", source := "", count := 0,
      firstTimestamp := "", lastTimestamp := "", eventTime := "", age := "" }
  let e1 := match nestedString item ["type"] with
    | some t => { e0 with typ := t }
    | none => e0
  let e2 := match nestedString item ["reason"] with
    | some r => { e1 with reason := r }
    | none => e1
  let e3 := match nestedString item ["message"] with
    | some m => { e2 with message := m }
    | none =>
      match nestedString item ["note"] with
      | some n => { e2 with message := n }
      | none => e2
  let e4 ← match nestedMap item ["involvedObject"] with
    | some io => do
      let s ← involvedObjectInfo io
      pure { e3 with involvedObject := s }
    | none => pure e3
  let e5 ← match nestedMap item ["source"] with
    | some src => do
      let s ← sourceInfo src
      pure { e4 with source := s }
    | none => pure e4
  let e6 := match nestedInt64 item ["count"] with
    | some c => { e5 with count := c }
    | none => e5
  let e7 := match nestedString item ["firstTimestamp"] with
    | some f => { e6 with firstTimestamp := f }
    | none => e6
  let e8 := match nestedString item ["lastTimestamp"] with
    | some l => { e7 with lastTimestamp := l }
    | none => e7
  let e9 := match nestedString item ["eventTime"] with
    | some t => { e8 with eventTime := t }
    | none => e8
  let aget1 : Option String := match nestedString item ["firstTimestamp"] with
    | some f => ageOf f
    | none => none
  let aget2 : Option String := match nestedString item ["eventTime"] with
    | some t => if e9.firstTimestamp = "" then (ageOf t).orElse (fun _ => aget1) else aget1
    | none => aget1
  pure { e9 with age := aget2.getD "" }

/-- A syntactically valid JSON Event whose `involvedObject.kind` holds a
number where the mapper asserts a string. -/
def badEvent : Unstructured :=
  [("metadata", KVal.obj [("name", KVal.str "bad-event"), ("namespace", KVal.str "default")]),
   ("type", KVal.str "Warning"),
   ("reason", KVal.str "FailedScheduling"),
   ("involvedObject", KVal.obj [("kind", KVal.int 42), ("name", KVal.str "some-pod")])]

/-! ## Ingress mapper (ingress.go) -/

/-- Embeds `IngressListContent` (ingress.go lines 11-19); `Class` is spelled
`ingressClass` (`class` is a Lean keyword), `Namespace` is `nspace`. -/
structure IngressListContent where
  name : String
  nspace : String
  ingressClass : String
  hosts : List String
  address : String
  ports : String

/-- One iteration of the `spec.rules` host loop (ingress.go lines 42-48). -/
def ingressRuleStep (hs : List String) (rule : KVal) : List String :=
  match rule with
  | KVal.obj rm =>
    match nestedString rm ["host"] with
    | some h => if h ≠ "" then hs ++ [h] else hs
    | none => hs
  | _ => hs

/-- One iteration of the `status.loadBalancer.ingress` loop (ingress.go
lines 54-63): per entry, a non-empty `ip` then a non-empty `hostname`. -/
def ingressLBStep (as : List String) (lb : KVal) : List String :=
  match lb with
  | KVal.obj lm =>
    let as1 := match nestedString lm ["ip"] with
      | some ip => if ip ≠ "" then as ++ [ip] else as
      | none => as
    match nestedString lm ["hostname"] with
    | some h => if h ≠ "" then as1 ++ [h] else as1
    | none => as1
  | _ => as

/-- Embeds `mapIngressResource` (ingress.go lines 29-75). -/
def mapIngressResource (item : Unstructured) : IngressListContent :=
  let i0 : IngressListContent :=
    { name := getName item, nspace := getNamespace item, ingressClass := "",
      hosts := [], address := "", ports := "" }
  let i1 := match nestedString item ["spec", "ingressClassName"] with
    | some c => { i0 with ingressClass := c }
    | none => i0
  let i2 := match nestedSlice item ["spec", "rules"] with
    | some rules => { i1 with hosts := rules.foldl ingressRuleStep [] }
    | none => i1
  let i3 := match nestedSlice item ["status", "loadBalancer", "ingress"] with
    | some lbs =>
      let addresses := lbs.foldl ingressLBStep []
      if addresses.length > 0 then { i2 with address := String.intercalate "," addresses } else i2
    | none => i2
  { i3 with ports := "80,443" }

/-- The non-empty host of one rule, in the words of the claim. -/
def ruleHost (rule : KVal) : Option String :=
  match rule with
  | KVal.obj rm =>
    match nestedString rm ["host"] with
    | some h => if h = "" then none else some h
    | none => none
  | _ => none

/-- All non-empty hostnames across all rules, in rule order. -/
def specIngressHosts (item : Unstructured) : List String :=
  match nestedSlice item ["spec", "rules"] with
  | some rules => rules.filterMap ruleHost
  | none => []

/-- The non-empty load-balancer-assigned addresses of one
`status.loadBalancer.ingress` entry: its `ip` then its `hostname`. -/
def lbAddrs (lb : KVal) : List String :=
  match lb with
  | KVal.obj lm =>
    (match nestedString lm ["ip"] with
      | some ip => if ip = "" then [] else [ip]
      | none => []) ++
    (match nestedString lm ["hostname"] with
      | some h => if h = "" then [] else [h]
      | none => [])
  | _ => []

/-- All non-empty load-balancer IPs and hostnames, in entry order. -/
def specIngressAddrList (item : Unstructured) : List String :=
  match nestedSlice item ["status", "loadBalancer", "ingress"] with
  | some lbs => (lbs.map lbAddrs).flatten
  | none => []

/-- The comma-joined address string, empty when there are no addresses. -/
def specIngressAddress (item : Unstructured) : String :=
  match specIngressAddrList item with
  | [] => ""
  | as => String.intercalate "," as

/-- An Ingress with the same host in two rules. -/
def dupHostIngress : Unstructured :=
  [("metadata", KVal.obj [("name", KVal.str "dup-ingress"), ("namespace", KVal.str "default")]),
   ("spec", KVal.obj
     [("rules", KVal.arr
       [KVal.obj [("host", KVal.str "a.example.com")],
        KVal.obj [("host", KVal.str "a.example.com")]])])]

/-! ## Deployment and StatefulSet mappers (deployment.go, statefulset.go) -/

/-- Embeds `DeploymentListContent` (deployment.go lines 11-18). -/
structure DeploymentListContent where
  name : String
  nspace : String
  ready : String
  upToDate : Int
  available : Int

/-- Embeds `mapDeploymentResource` (deployment.go lines 28-54): `Ready` comes from
`status.replicas` and `status.readyReplicas`. -/
def mapDeploymentResource (item : Unstructured) : DeploymentListContent :=
  let d0 : DeploymentListContent :=
    { name := getName item, nspace := getNamespace item, ready := "", upToDate := 0, available := 0 }
  let d1 := match nestedInt64 item ["status", "replicas"] with
    | some replicas =>
      match nestedInt64 item ["status", "readyReplicas"] with
      | some rr => { d0 with ready := toString rr ++ "/" ++ toString replicas }
      | none => { d0 with ready := "0/" ++ toString replicas }
    | none => d0
  let d2 := match nestedInt64 item ["status", "updatedReplicas"] with
    | some u => { d1 with upToDate := u }
    | none => d1
  match nestedInt64 item ["status", "availableReplicas"] with
  | some a => { d2 with available := a }
  | none => d2

/-- Embeds `StatefulSetListContent` (statefulset.go lines 80-85). -/
structure StatefulSetListContent where
  name : String
  nspace : String
  ready : String

/-- Embeds `mapStatefulSetResource` (statefulset.go lines 95-113): `Ready` comes
from `spec.replicas` and `status.readyReplicas`. -/
def mapStatefulSetResource (item : Unstructured) : StatefulSetListContent :=
  let s0 : StatefulSetListContent :=
    { name := getName item, nspace := getNamespace item, ready := "" }
  match nestedInt64 item ["spec", "replicas"] with
  | some replicas =>
    match nestedInt64 item ["status", "readyReplicas"] with
    | some rr => { s0 with ready := toString rr ++ "/" ++ toString replicas }
    | none => { s0 with ready := "0/" ++ toString replicas }
  | none => s0

/-! ## GVK to GVR resolution (gvr.go), with discovery as an external collaborator -/

/-- Embeds `schema.GroupVersionResource`. -/
structure GroupVersionResource where
  group : String
  version : String
  resource : String
  deriving DecidableEq

/-- The clients bundle returned by `getClientsForContext`: only the REST
mapper capability is relevant here. `restMapper (group, kind) version`
models `clients.restMapper.RESTMapping(gvk.GroupKind(), gvk.Version)`
returning `mapping.Resource` or a discovery error. -/
structure K8sClients where
  restMapper : String × String → String → Except String GroupVersionResource

/-- Embeds `gvk.GroupKind()`: the (Group, Kind) pair, passed through verbatim. -/
def groupKindOf (gvk : GroupVersionKind) : String × String :=
  (gvk.group, gvk.kind)

/-- Embeds `GVKToGVR` (gvr.go lines 26-40), with `getClientsForContext` abstracted
as the `getClients` environment (it performs config loading and discovery,
both external collaborators). -/
def GVKToGVR (getClients : String → Except String K8sClients)
    (context : String) (gvk : GroupVersionKind) : Except String GroupVersionResource :=
  match getClients context with
  | Except.error e => Except.error ("failed to create k8s clients: " ++ e)
  | Except.ok clients =>
    match clients.restMapper (groupKindOf gvk) gvk.version with
    | Except.error e => Except.error ("failed to map kind to resource: " ++ e)
    | Except.ok resource => Except.ok resource

/-- A discovery environment whose REST mapper resolves exactly the
group-kind `("", "Pod")` at version `"v1"` (the cluster's own matching is
more liberal, but any environment is a valid collaborator instance). -/
def podOnlyClients : K8sClients :=
  ⟨fun gk version =>
    if gk = ("", "Pod") ∧ version = "v1" then Except.ok ⟨"", "v1", "pods"⟩
    else Except.error "no matches for kind"⟩

/-- Embeds `getClientsForContext` succeeding with `podOnlyClients` on every context. -/
def podOnlyEnv : String → Except String K8sClients :=
  fun _ => Except.ok podOnlyClients

/-! ## The list_k8s_resources tool handler (list_k8s_resources.go) -/

/-- The tool-call request as seen through the mcp-go accessors (an external
collaborator): a partial map of string-typed arguments and one of
number-typed (`float64`) arguments. -/
structure MCPRequest where
  strs : String → Option String
  nums : String → Option ℚ

/-- Embeds `request.RequireString(key)`: error when the argument is absent. -/
def requireString (req : MCPRequest) (key : String) : Except String String :=
  match req.strs key with
  | some s => Except.ok s
  | none => Except.error ("required argument \"" ++ key ++ "\" not found")

/-- Embeds `request.GetString(key, default)`. -/
def getString (req : MCPRequest) (key : String) (dflt : String) : String :=
  (req.strs key).getD dflt

/-- Embeds `request.GetFloat(key, default)`; `float64` values are modelled as exact
rationals. -/
def getFloat (req : MCPRequest) (key : String) (dflt : ℚ) : ℚ :=
  (req.nums key).getD dflt

/-- Property name constants (list_k8s_resources.go lines 16-25). -/
def contextProperty : String := "context"

def namespaceProperty : String := "namespace"

def groupProperty : String := "group"

def versionProperty : String := "version"

def kindProperty : String := "kind"

def fieldSelectorProperty : String := "fieldSelector"

def limitProperty : String := "limit"

def continueProperty : String := "continue"

/-- Go's `%v` rendering of a `float64`, exact for the integral values that
appear in the claims (an integral float prints without a decimal point). -/
def goFloatText (q : ℚ) : String :=
  if q.den = 1 then toString q.num else toString q

/-- Go's `int64(...)` conversion of a float: truncation toward zero (for the
nonnegative values that reach it, integer division of the exact rational). -/
def ratTruncToInt (q : ℚ) : Int :=
  q.num / (q.den : Int)

/-- Embeds `listK8sResourcesParams` (list_k8s_resources.go lines 27-36);
`Namespace` is spelled `nspace` and `Continue` is `continueToken` (Lean
keywords). -/
structure ListK8sResourcesParams where
  context : String
  nspace : String
  group : String
  version : String
  kind : String
  fieldSelector : String
  limit : Int
  continueToken : String

/-- Embeds `extractListK8sResourcesParams` (list_k8s_resources.go lines 161-188):
`context` and `kind` are required; `limit` defaults to 100 and must not be
negative; `version` defaults to `"v1"`; `namespace` defaults to
`metav1.NamespaceAll`, the empty string (all namespaces). -/
def extractListK8sResourcesParams (req : MCPRequest) : Except String ListK8sResourcesParams :=
  match requireString req contextProperty with
  | Except.error e => Except.error e
  | Except.ok contextArg =>
    match requireString req kindProperty with
    | Except.error e => Except.error e
    | Except.ok kindArg =>
      let limit := getFloat req limitProperty 100
      if limit < 0 then
        Except.error ("limit must be positive, got " ++ goFloatText limit)
      else
        Except.ok
          { context := contextArg,
            nspace := getString req namespaceProperty "",
            group := getString req groupProperty "",
            version := getString req versionProperty "v1",
            kind := kindArg,
            fieldSelector := getString req fieldSelectorProperty "",
            limit := ratTruncToInt limit,
            continueToken := getString req continueProperty "" }

/-- Embeds `metav1.ListOptions` as populated by the handler: the limit is always
set; empty `fieldSelector`/`continue` coincide with the struct zero values,
so the conditional assignments of the source reduce to a plain copy. -/
structure ListOptions where
  limit : Int
  fieldSelector : String
  continueToken : String

/-- Embeds `unstructured.UnstructuredList`: its top-level `.Object` map (carrying
`metadata.continue` / `metadata.remainingItemCount`) and its `.Items`. -/
structure UnstructuredList where
  object : Unstructured
  items : List Unstructured

/-- The dynamic client's namespaced (or all-namespaces, when the namespace
is empty) List call, an external collaborator. -/
def DynamicClient : Type :=
  GroupVersionResource → String → ListOptions → Except String UnstructuredList

/-- The handler's successful response value: the `items` array plus the
optional pagination metadata, prior to JSON serialization (an external
concern). -/
structure ListResponse where
  items : List KVal
  continueToken : Option String
  remainingItemCount : Option Int

/-- Embeds `listK8sResourcesHandler` (list_k8s_resources.go lines 78-159), with the
mapper registry and the cluster collaborators passed explicitly: parameter
extraction, GVK→GVR resolution, dynamic-client creation, the List call, and
content projection plus pagination metadata. -/
def listK8sResourcesHandler (reg : Registry (Unstructured → KVal))
    (getClients : String → Except String K8sClients)
    (getDynamicClient : String → Except String DynamicClient)
    (req : MCPRequest) : Except String ListResponse :=
  match extractListK8sResourcesParams req with
  | Except.error e => Except.error e
  | Except.ok params =>
    let gvk : GroupVersionKind := ⟨params.group, params.version, params.kind⟩
    match GVKToGVR getClients params.context gvk with
    | Except.error e => Except.error e
    | Except.ok gvr =>
      match getDynamicClient params.context with
      | Except.error e => Except.error ("Failed to create dynamic client: " ++ e)
      | Except.ok client =>
        let listOptions : ListOptions :=
          ⟨params.limit, params.fieldSelector, params.continueToken⟩
        match client gvr params.nspace listOptions with
        | Except.error e => Except.error ("Failed to list resources: " ++ e)
        | Except.ok list =>
          let items := mapToK8sResourceListContent reg list.items gvk
          let continueTok := match nestedString list.object ["metadata", "continue"] with
            | some c => if c ≠ "" then some c else none
            | none => none
          Except.ok ⟨items, continueTok, nestedInt64 list.object ["metadata", "remainingItemCount"]⟩

/-! ## Helper lemmas about case folding and normalization -/

theorem toNat_ofNat_valid (n : Nat) (h : n.isValidChar) : (Char.ofNat n).toNat = n := by
  unfold Char.ofNat
  rw [dif_pos h]
  rfl

theorem lowerChar_toNat_of_upper {c : Char} (h : 65 ≤ c.toNat ∧ c.toNat ≤ 90) :
    (lowerChar c).toNat = c.toNat + 32 := by
  have hlow : lowerChar c = Char.ofNat (c.toNat + 32) := by
    unfold lowerChar
    rw [if_pos h]
  rw [hlow]
  exact toNat_ofNat_valid _ (Or.inl (by omega))

theorem upperChar_lowerChar (c : Char) : upperChar (lowerChar c) = upperChar c := by
  by_cases h : 65 ≤ c.toNat ∧ c.toNat ≤ 90
  · have ht := lowerChar_toNat_of_upper h
    unfold upperChar
    rw [if_pos (show 97 ≤ (lowerChar c).toNat ∧ (lowerChar c).toNat ≤ 122 by omega)]
    rw [if_neg (show ¬(97 ≤ c.toNat ∧ c.toNat ≤ 122) by omega)]
    rw [ht]
    have h32 : c.toNat + 32 - 32 = c.toNat := by omega
    rw [h32]
    exact Char.ofNat_toNat c
  · have hlow : lowerChar c = c := by
      unfold lowerChar
      rw [if_neg h]
    rw [hlow]

theorem normalizeKind_eq_of_sameUpToCase {s t : String} (h : sameUpToCase s t) :
    normalizeKind s = normalizeKind t := by
  unfold sameUpToCase at h
  unfold normalizeKind
  cases hs : s.data with
  | nil =>
    cases ht : t.data with
    | nil => rfl
    | cons c cs =>
      rw [hs, ht] at h
      simp at h
  | cons c cs =>
    cases ht : t.data with
    | nil =>
      rw [hs, ht] at h
      simp at h
    | cons d ds =>
      rw [hs, ht] at h
      simp only [List.map_cons, List.cons.injEq] at h
      obtain ⟨h1, h2⟩ := h
      have hu : upperChar c = upperChar d := by
        calc upperChar c = upperChar (lowerChar c) := (upperChar_lowerChar c).symm
        _ = upperChar (lowerChar d) := by rw [h1]
        _ = upperChar d := upperChar_lowerChar d
      simp only [normalizeKindChars]
      rw [hu, h2]

theorem normalizeGVKForLookup_eq (gvk : GroupVersionKind) :
    normalizeGVKForLookup gvk = ⟨gvk.group, gvk.version, normalizeKind gvk.kind⟩ := by
  unfold normalizeGVKForLookup
  by_cases h : gvk.kind = ""
  · rw [if_pos h]
    cases gvk with
    | mk g v k =>
      simp only at h
      subst h
      rfl
  · rw [if_neg h]

/-! ## Claim theorems -/

/-- C1: starting from the empty registry, after `Register((g,v,k), m)`, a
`Get((g',v',k'))` returns the mapper (found) exactly when g' equals g, v'
equals v, and k' agrees with k after normalization (first character
upper-cased, the rest lower-cased); moreover normalization is invariant
under casing, so every casing variant of the kind string is found and any
differing group or version is not. -/
theorem registry_identity_roundtrip {M : Type} (gvk gvk' : GroupVersionKind) (m : M) :
    (Get gvk' (Register gvk m emptyRegistry) = some m ↔
      gvk'.group = gvk.group ∧ gvk'.version = gvk.version ∧
        normalizeKind gvk'.kind = normalizeKind gvk.kind) ∧
    (∀ k k' : String, sameUpToCase k k' → normalizeKind k = normalizeKind k') := by
  constructor
  · have hstep : Get gvk' (Register gvk m emptyRegistry)
        = if normalizeGVKForLookup gvk' = normalizeGVKForLookup gvk then some m else none := rfl
    rw [hstep]
    by_cases h : normalizeGVKForLookup gvk' = normalizeGVKForLookup gvk
    · rw [if_pos h]
      rw [normalizeGVKForLookup_eq, normalizeGVKForLookup_eq] at h
      simp only [GroupVersionKind.mk.injEq] at h
      obtain ⟨h1, h2, h3⟩ := h
      simp [h1, h2, h3]
    · rw [if_neg h]
      constructor
      · intro hcontra
        exact Option.noConfusion hcontra
      · rintro ⟨h1, h2, h3⟩
        refine absurd ?_ h
        rw [normalizeGVKForLookup_eq, normalizeGVKForLookup_eq]
        simp [h1, h2, h3]
  · intro k k' hk
    exact normalizeKind_eq_of_sameUpToCase hk

/-- Witness for C1: register under Kind "pod", find under Kind "POD", and
the casing-invariance conjunct at "pOd"/"POD". -/
theorem registry_identity_roundtrip_witness :
    Get ⟨"", "v1", "POD"⟩ (Register ⟨"", "v1", "pod"⟩ (42 : Nat) emptyRegistry) = some 42 ∧
      normalizeKind "pOd" = normalizeKind "POD" := by
  refine ⟨?_, ?_⟩
  · exact (registry_identity_roundtrip ⟨"", "v1", "pod"⟩ ⟨"", "v1", "POD"⟩ 42).1.mpr
      ⟨rfl, rfl, by decide⟩
  · exact (registry_identity_roundtrip (M := Nat) ⟨"", "v1", "x"⟩ ⟨"", "v1", "x"⟩ 0).2
      "pOd" "POD" (by decide)

/-- C7: registering two mappers under identities that normalize to the same
key leaves exactly one entry in the registry, and a lookup under any
identity normalizing to that key returns the second-registered mapper. -/
theorem registry_overwrite {M : Type} (gvk1 gvk2 : GroupVersionKind) (m1 m2 : M)
    (h : normalizeGVKForLookup gvk1 = normalizeGVKForLookup gvk2) :
    (Register gvk2 m2 (Register gvk1 m1 emptyRegistry)).length = 1 ∧
      ∀ gvk', normalizeGVKForLookup gvk' = normalizeGVKForLookup gvk2 →
        Get gvk' (Register gvk2 m2 (Register gvk1 m1 emptyRegistry)) = some m2 := by
  have hreg : Register gvk2 m2 (Register gvk1 m1 emptyRegistry)
      = [(normalizeGVKForLookup gvk1, m2)] := by
    have h0 : Register gvk2 m2 (Register gvk1 m1 emptyRegistry)
        = if normalizeGVKForLookup gvk2 = normalizeGVKForLookup gvk1
          then (normalizeGVKForLookup gvk1, m2) :: []
          else (normalizeGVKForLookup gvk1, m1) :: mapInsert [] (normalizeGVKForLookup gvk2) m2 := rfl
    rw [h0, if_pos h.symm]
  constructor
  · rw [hreg]
    rfl
  · intro gvk' h'
    unfold Get
    rw [hreg]
    unfold mapFind
    rw [if_pos (h'.trans h.symm)]

/-- Witness for C7: two registrations under "pod"/"POD" collapse to one
entry and a lookup under "Pod" yields the second mapper. -/
theorem registry_overwrite_witness :
    (Register ⟨"", "v1", "POD"⟩ (2 : Nat) (Register ⟨"", "v1", "pod"⟩ 1 emptyRegistry)).length = 1 ∧
      Get ⟨"", "v1", "Pod"⟩
        (Register ⟨"", "v1", "POD"⟩ (2 : Nat) (Register ⟨"", "v1", "pod"⟩ 1 emptyRegistry)) = some 2 := by
  have h := registry_overwrite ⟨"", "v1", "pod"⟩ ⟨"", "v1", "POD"⟩ 1 2 (by decide)
  exact ⟨h.1, h.2 ⟨"", "v1", "Pod"⟩ (by decide)⟩

/-- C6: for every identity with no registered mapper, the single-item and
list projections never fail and produce exactly the generic projection per
object — `name` from the object's own metadata name, `namespace` omitted
from the JSON output when empty — and every item of a list receives the
same fallback. -/
theorem dispatcher_fallback (reg : Registry (Unstructured → KVal)) (gvk : GroupVersionKind)
    (h : Get gvk reg = none) :
    (∀ item, mapToK8sResourceContent reg item gvk = genericContentJSON (MapGenericK8sResource item)) ∧
    (∀ items, mapToK8sResourceListContent reg items gvk
      = items.map (fun item => genericContentJSON (MapGenericK8sResource item))) ∧
    (∀ item, genericContentJSON (MapGenericK8sResource item)
      = KVal.obj (("name", KVal.str (getName item)) ::
          (if getNamespace item = "" then []
           else [("namespace", KVal.str (getNamespace item))]))) := by
  refine ⟨?_, ?_, ?_⟩
  · intro item
    unfold mapToK8sResourceContent
    rw [h]
  · intro items
    unfold mapToK8sResourceListContent
    rw [h]
  · intro item
    rfl

/-- Witness for C6: the empty registry misses every identity; a concrete
object projects to its generic content. -/
theorem dispatcher_fallback_witness :
    mapToK8sResourceContent emptyRegistry
      [("metadata", KVal.obj [("name", KVal.str "foo")])] ⟨"", "v1", "Widget"⟩
      = genericContentJSON
          (MapGenericK8sResource [("metadata", KVal.obj [("name", KVal.str "foo")])]) :=
  (dispatcher_fallback emptyRegistry ⟨"", "v1", "Widget"⟩ rfl).1
    [("metadata", KVal.obj [("name", KVal.str "foo")])]

/-- C2 counterexample: the resolver performs no kind normalization — in a
discovery environment resolving exactly the group-kind `("", "Pod")`, the
kinds "pod" and "Pod" normalize identically yet the resolver issues
different requests and returns different results. -/
theorem resolver_no_normalization_counterexample :
    normalizeKind "pod" = normalizeKind "Pod" ∧
    GVKToGVR podOnlyEnv "prod" ⟨"", "v1", "Pod"⟩ = Except.ok ⟨"", "v1", "pods"⟩ ∧
    GVKToGVR podOnlyEnv "prod" ⟨"", "v1", "pod"⟩
      = Except.error "failed to map kind to resource: no matches for kind" ∧
    GVKToGVR podOnlyEnv "prod" ⟨"", "v1", "pod"⟩ ≠ GVKToGVR podOnlyEnv "prod" ⟨"", "v1", "Pod"⟩ := by
  refine ⟨by decide, rfl, rfl, ?_⟩
  intro hcontra
  have h1 : GVKToGVR podOnlyEnv "prod" ⟨"", "v1", "pod"⟩
      = Except.error "failed to map kind to resource: no matches for kind" := rfl
  have h2 : GVKToGVR podOnlyEnv "prod" ⟨"", "v1", "Pod"⟩ = Except.ok ⟨"", "v1", "pods"⟩ := rfl
  rw [h1, h2] at hcontra
  exact Except.noConfusion hcontra

/-- C2 amended: the resolver does not normalize the user-supplied kind; it
forwards the raw (group, kind) pair and version unchanged to the REST
mapping request — kind normalization happens only in the mapper registry,
so two kinds that normalize identically may issue different requests. -/
theorem resolver_forwards_raw_kind (getClients : String → Except String K8sClients)
    (context : String) (gvk : GroupVersionKind) (clients : K8sClients)
    (h : getClients context = Except.ok clients) :
    GVKToGVR getClients context gvk
      = match clients.restMapper (gvk.group, gvk.kind) gvk.version with
        | Except.error e => Except.error ("failed to map kind to resource: " ++ e)
        | Except.ok resource => Except.ok resource := by
  unfold GVKToGVR groupKindOf
  rw [h]

/-- Witness for C2 (amended): the raw kind "pOD" is forwarded verbatim. -/
theorem resolver_forwards_raw_kind_witness :
    GVKToGVR podOnlyEnv "prod" ⟨"", "v1", "pOD"⟩
      = match podOnlyClients.restMapper ("", "pOD") "v1" with
        | Except.error e => Except.error ("failed to map kind to resource: " ++ e)
        | Except.ok resource => Except.ok resource :=
  resolver_forwards_raw_kind podOnlyEnv "prod" ⟨"", "v1", "pOD"⟩ podOnlyClients rfl

/-- C3 (code bug): the Event mapper is not total — on a valid JSON Event
whose `involvedObject.kind` holds a number where a string is expected, the
unchecked type assertion `kind.(string)` panics (modelled as `none`) for
every clock behaviour, instead of treating the field as absent. -/
theorem event_mapper_faults_on_nonstring_kind :
    ∀ ageOf : String → Option String, mapEventResource ageOf badEvent = none := by
  intro ageOf
  rfl

/-- C9: whenever the replicas count read by the mapper (`status.replicas`
for Deployment, `spec.replicas` for StatefulSet) is present, Ready is
"readyReplicas/replicas" with readyReplicas defaulting to 0 when
`status.readyReplicas` is absent; when replicas is absent, Ready stays
empty (omitted under its `omitempty` tag). -/
theorem replicas_ready_format (item : Unstructured) :
    (∀ r : Int, nestedInt64 item ["status", "replicas"] = some r →
      (mapDeploymentResource item).ready
        = toString ((nestedInt64 item ["status", "readyReplicas"]).getD 0) ++ "/" ++ toString r) ∧
    (nestedInt64 item ["status", "replicas"] = none → (mapDeploymentResource item).ready = "") ∧
    (∀ r : Int, nestedInt64 item ["spec", "replicas"] = some r →
      (mapStatefulSetResource item).ready
        = toString ((nestedInt64 item ["status", "readyReplicas"]).getD 0) ++ "/" ++ toString r) ∧
    (nestedInt64 item ["spec", "replicas"] = none → (mapStatefulSetResource item).ready = "") := by
  refine ⟨?_, ?_, ?_, ?_⟩
  · intro r h
    rcases hrr : nestedInt64 item ["status", "readyReplicas"] with _ | rr <;>
      rcases hu : nestedInt64 item ["status", "updatedReplicas"] with _ | u <;>
        rcases ha : nestedInt64 item ["status", "availableReplicas"] with _ | a <;>
          simp [mapDeploymentResource, h, hrr, hu, ha]
    all_goals rfl
  · intro h
    rcases hu : nestedInt64 item ["status", "updatedReplicas"] with _ | u <;>
      rcases ha : nestedInt64 item ["status", "availableReplicas"] with _ | a <;>
        simp [mapDeploymentResource, h, hu, ha]
  · intro r h
    rcases hrr : nestedInt64 item ["status", "readyReplicas"] with _ | rr <;>
      simp [mapStatefulSetResource, h, hrr]
    all_goals rfl
  · intro h
    simp [mapStatefulSetResource, h]

/-- Witness for C9: a Deployment with `status.replicas` 3 and no
`status.readyReplicas` reports Ready "0/3", and a StatefulSet with
`spec.replicas` 2 and `status.readyReplicas` 1 reports Ready "1/2". -/
theorem replicas_ready_format_witness :
    (mapDeploymentResource [("status", KVal.obj [("replicas", KVal.int 3)])]).ready = "0/3" ∧
    (mapStatefulSetResource
      [("spec", KVal.obj [("replicas", KVal.int 2)]),
       ("status", KVal.obj [("readyReplicas", KVal.int 1)])]).ready = "1/2" := by
  constructor
  · exact ((replicas_ready_format [("status", KVal.obj [("replicas", KVal.int 3)])]).1 3
      rfl).trans (by decide)
  · exact ((replicas_ready_format
      [("spec", KVal.obj [("replicas", KVal.int 2)]),
       ("status", KVal.obj [("readyReplicas", KVal.int 1)])]).2.2.1 2 rfl).trans (by decide)

theorem podStatusStep_oomKills (acc : PodStatusAcc) (c : KVal) :
    (podStatusStep acc c).oomKills = acc.oomKills + specOOMCount c := by
  cases c with
  | str s => rfl
  | int n => rfl
  | bool b => rfl
  | null => rfl
  | arr xs => rfl
  | obj cm =>
    rcases h1 : nestedBool cm ["ready"] with _ | (_ | _) <;>
      rcases h2 : nestedInt64 cm ["restartCount"] with _ | rc <;>
        rcases h3 : nestedString cm ["lastState", "terminated", "reason"] with _ | r1 <;>
          rcases h4 : nestedString cm ["state", "terminated", "reason"] with _ | r2 <;>
            simp [podStatusStep, specOOMCount, h1, h2, h3, h4] <;>
              split_ifs <;> simp

theorem foldl_podStatusStep_oomKills (cs : List KVal) (acc : PodStatusAcc) :
    (cs.foldl podStatusStep acc).oomKills = acc.oomKills + (cs.map specOOMCount).sum := by
  induction cs generalizing acc with
  | nil => simp
  | cons c rest ih =>
    simp only [List.foldl_cons, List.map_cons, List.sum_cons]
    rw [ih, podStatusStep_oomKills]
    omega

/-- C5: the Pod mapper's OOMKills equals the count of "OOMKilled"
occurrences summed over both the lastState.terminated and state.terminated
reason of every container; in particular one container showing "OOMKilled"
in both states simultaneously yields OOMKills 2. -/
theorem pod_oom_double_count :
    (mapPodResource doubleOOMPod).oomKills = 2 ∧
    ∀ (item : Unstructured) (cs : List KVal),
      nestedSlice item ["status", "containerStatuses"] = some cs →
      (mapPodResource item).oomKills = (cs.map specOOMCount).sum := by
  constructor
  · rfl
  · intro item cs h
    unfold mapPodResource
    rw [h]
    simp [foldl_podStatusStep_oomKills]

/-- Witness for C5: the double-OOM pod instantiates the universal at its
own container-status list, whose per-container counts sum to 2. -/
theorem pod_oom_double_count_witness :
    (mapPodResource doubleOOMPod).oomKills
      = (([KVal.obj
          [("lastState", KVal.obj [("terminated", KVal.obj [("reason", KVal.str "OOMKilled")])]),
           ("state", KVal.obj [("terminated", KVal.obj [("reason", KVal.str "OOMKilled")])])]]).map
          specOOMCount).sum :=
  pod_oom_double_count.2 doubleOOMPod
    [KVal.obj
      [("lastState", KVal.obj [("terminated", KVal.obj [("reason", KVal.str "OOMKilled")])]),
       ("state", KVal.obj [("terminated", KVal.obj [("reason", KVal.str "OOMKilled")])])]]
    rfl

theorem foldl_ingressRuleStep (rules : List KVal) (hs : List String) :
    rules.foldl ingressRuleStep hs = hs ++ rules.filterMap ruleHost := by
  induction rules generalizing hs with
  | nil => simp
  | cons r rs ih =>
    simp only [List.foldl_cons, ih, List.filterMap_cons]
    cases r with
    | str s => simp [ingressRuleStep, ruleHost]
    | int n => simp [ingressRuleStep, ruleHost]
    | bool b => simp [ingressRuleStep, ruleHost]
    | null => simp [ingressRuleStep, ruleHost]
    | arr xs => simp [ingressRuleStep, ruleHost]
    | obj rm =>
      rcases hh : nestedString rm ["host"] with _ | h
      · simp [ingressRuleStep, ruleHost, hh]
      · by_cases he : h = ""
        · simp [ingressRuleStep, ruleHost, hh, he]
        · simp [ingressRuleStep, ruleHost, hh, he]

theorem foldl_ingressLBStep (lbs : List KVal) (as : List String) :
    lbs.foldl ingressLBStep as = as ++ (lbs.map lbAddrs).flatten := by
  induction lbs generalizing as with
  | nil => simp
  | cons lb rest ih =>
    simp only [List.foldl_cons, ih, List.map_cons, List.flatten_cons]
    cases lb with
    | str s => simp [ingressLBStep, lbAddrs]
    | int n => simp [ingressLBStep, lbAddrs]
    | bool b => simp [ingressLBStep, lbAddrs]
    | null => simp [ingressLBStep, lbAddrs]
    | arr xs => simp [ingressLBStep, lbAddrs]
    | obj lm =>
      rcases hip : nestedString lm ["ip"] with _ | ip <;>
        rcases hhn : nestedString lm ["hostname"] with _ | hn <;>
          simp [ingressLBStep, lbAddrs, hip, hhn] <;>
            split_ifs <;> simp

/-- C8 counterexample: with the same hostname in two rules the mapper's
Hosts output lists it twice — the output is not a set of distinct
hostnames, contradicting the claim. -/
theorem ingress_hosts_not_distinct :
    (mapIngressResource dupHostIngress).hosts = ["a.example.com", "a.example.com"] ∧
    ¬ (mapIngressResource dupHostIngress).hosts.Nodup := by
  refine ⟨rfl, ?_⟩
  decide

/-- C8 amended: Hosts collects all non-empty hostnames across all rules in
rule order, duplicates included (no deduplication); Address is the
comma-joined concatenation of all non-empty load-balancer IPs and
hostnames from status.loadBalancer.ingress; Ports always equals "80,443". -/
theorem ingress_mapper_outputs (item : Unstructured) :
    (mapIngressResource item).hosts = specIngressHosts item ∧
    (mapIngressResource item).address = specIngressAddress item ∧
    (mapIngressResource item).ports = "80,443" := by
  rcases hc : nestedString item ["spec", "ingressClassName"] with _ | c <;>
    rcases hr : nestedSlice item ["spec", "rules"] with _ | rules <;>
      rcases hl : nestedSlice item ["status", "loadBalancer", "ingress"] with _ | lbs <;>
        simp [mapIngressResource, specIngressHosts, specIngressAddress, specIngressAddrList,
          hc, hr, hl, foldl_ingressRuleStep, foldl_ingressLBStep]
  all_goals
    rcases hfl : (lbs.map lbAddrs).flatten with _ | ⟨a, as⟩
  all_goals
    first
      | { have hzero : (List.map (List.length ∘ lbAddrs) lbs).sum = 0 := by
            have hlen := congrArg List.length hfl
            rwa [List.length_flatten, List.map_map, List.length_nil] at hlen
          rw [if_neg (by omega)]
          exact ⟨rfl, rfl⟩ }
      | { have hpos : 0 < (List.map (List.length ∘ lbAddrs) lbs).sum := by
            have hlen := congrArg List.length hfl
            rw [List.length_flatten, List.map_map, List.length_cons] at hlen
            omega
          rw [if_pos hpos]
          exact ⟨rfl, rfl⟩ }

/-- C4: the memory-unit parser satisfies the literal table; every input
that fails the numeric-prefix/alphabetic-suffix pattern and every matching
input with an unrecognized suffix returns 0; fractional values are
truncated toward zero in the final conversion (e.g. 1.9Mi gives 1). -/
theorem parse_memory_table :
    parseMemoryToMiB "" = 0 ∧
    parseMemoryToMiB "128Mi" = 128 ∧
    parseMemoryToMiB "1Gi" = 1024 ∧
    parseMemoryToMiB "1.5Gi" = 1536 ∧
    parseMemoryToMiB "500000000" = 476 ∧
    parseMemoryToMiB "invalid" = 0 ∧
    parseMemoryToMiB "123" = 0 ∧
    parseMemoryToMiB "1.9Mi" = 1 ∧
    (∀ s : String, matchMemory (trimSpaceChars s.data) = none → parseMemoryToMiB s = 0) ∧
    (∀ (s : String) (n k : Nat) (u : String),
      matchMemory (trimSpaceChars s.data) = some (n, k, u) → memoryUnits u = none →
      parseMemoryToMiB s = 0) := by
  refine ⟨rfl, by decide, by decide, by decide, by decide, by decide, by decide, by decide, ?_, ?_⟩
  · intro s h
    unfold parseMemoryToMiB
    by_cases hs : s = ""
    · rw [if_pos hs]
    · rw [if_neg hs, h]
  · intro s n k u h hu
    unfold parseMemoryToMiB
    by_cases hs : s = ""
    · rw [if_pos hs]
    · rw [if_neg hs, h]
      simp [hu]

/-- Witness for C4: "7zz" matches the pattern with the unrecognized suffix
"zz" and parses to 0. -/
theorem parse_memory_table_witness :
    parseMemoryToMiB "7zz" = 0 :=
  parse_memory_table.2.2.2.2.2.2.2.2.2 "7zz" 7 0 "zz" (by decide) rfl

/-- C10: the list-resources handler validates its limit before any
resolution or cluster work — with a negative limit it returns the
"limit must be positive" error for every registry, discovery environment
and dynamic client (none of which is consulted); an absent limit defaults
to 100, an absent version to "v1", and an absent namespace to the empty
string, `metav1.NamespaceAll`. -/
theorem list_tool_param_validation :
    (∀ (reg : Registry (Unstructured → KVal)) (getClients : String → Except String K8sClients)
        (getDynamicClient : String → Except String DynamicClient) (req : MCPRequest)
        (c k : String) (q : ℚ),
      req.strs contextProperty = some c → req.strs kindProperty = some k →
      req.nums limitProperty = some q → q < 0 →
      listK8sResourcesHandler reg getClients getDynamicClient req
        = Except.error ("limit must be positive, got " ++ goFloatText q)) ∧
    goFloatText (-1 : ℚ) = "-1" ∧
    (∀ (req : MCPRequest) (p : ListK8sResourcesParams),
      extractListK8sResourcesParams req = Except.ok p →
      (req.nums limitProperty = none → p.limit = 100) ∧
      (req.strs versionProperty = none → p.version = "v1") ∧
      (req.strs namespaceProperty = none → p.nspace = "")) := by
  refine ⟨?_, by decide, ?_⟩
  · intro reg getClients getDynamicClient req c k q hc hk hq hneg
    have hlim : getFloat req limitProperty 100 = q := by
      unfold getFloat
      rw [hq]
      rfl
    have hex : extractListK8sResourcesParams req
        = Except.error ("limit must be positive, got " ++ goFloatText q) := by
      unfold extractListK8sResourcesParams requireString
      rw [hc, hk]
      simp [hlim, hneg]
    unfold listK8sResourcesHandler
    rw [hex]
  · intro req p hok
    rcases hc : req.strs contextProperty with _ | c
    · unfold extractListK8sResourcesParams requireString at hok
      rw [hc] at hok
      simp at hok
    · rcases hk : req.strs kindProperty with _ | k
      · unfold extractListK8sResourcesParams requireString at hok
        rw [hc, hk] at hok
        simp at hok
      · unfold extractListK8sResourcesParams requireString at hok
        rw [hc, hk] at hok
        by_cases hneg : getFloat req limitProperty 100 < 0
        · simp [hneg] at hok
        · simp [hneg] at hok
          subst hok
          refine ⟨?_, ?_, ?_⟩
          · intro hnone
            have hlim : getFloat req limitProperty 100 = 100 := by
              unfold getFloat
              rw [hnone]
              rfl
            simp [hlim]
            decide
          · intro hnone
            unfold getString
            rw [hnone]
            rfl
          · intro hnone
            unfold getString
            rw [hnone]
            rfl

/-- Witness for C10: a request with context "prod", kind "pod" and limit -1
makes the handler fail with the validation error for an arbitrary
environment, and a request without limit, version or namespace extracts the
defaults 100, "v1" and "". -/
theorem list_tool_param_validation_witness :
    listK8sResourcesHandler emptyRegistry podOnlyEnv (fun _ => Except.error "unused")
      ⟨fun key => if key = "context" then some "prod" else if key = "kind" then some "pod" else none,
       fun key => if key = "limit" then some (-1) else none⟩
      = Except.error ("limit must be positive, got " ++ goFloatText (-1)) ∧
    ((⟨"prod", "", "", "v1", "pod", "", 100, ""⟩ : ListK8sResourcesParams).limit = 100 ∧
      extractListK8sResourcesParams
        ⟨fun key => if key = "context" then some "prod" else if key = "kind" then some "pod" else none,
         fun _ => none⟩
        = Except.ok ⟨"prod", "", "", "v1", "pod", "", 100, ""⟩) := by
  constructor
  · exact list_tool_param_validation.1 emptyRegistry podOnlyEnv (fun _ => Except.error "unused")
      _ "prod" "pod" (-1) rfl rfl rfl (by norm_num)
  · constructor
    · exact (list_tool_param_validation.2.2
        ⟨fun key => if key = "context" then some "prod" else if key = "kind" then some "pod" else none,
         fun _ => none⟩
        ⟨"prod", "", "", "v1", "pod", "", 100, ""⟩ rfl).1 rfl
    · rfl

end McpK8s
